import Mathlib

/-!
Verification of the command-execution gateway in
`src/linux_shell_server/main.py` (classes `CommandCache` and
`ShellExecutor`).

The Python code is embedded shallowly: the two classes become Lean
structures, each method becomes a pure function, and mutation of
`self` is modelled by returning the updated state.  Everything the
Python code delegates to the operating system (spawning the child
process, `os.path.exists`, `os.path.isdir`, `os.listdir`,
`os.path.expanduser` / `expandvars` / `abspath`, and the wall clock)
is a parameter of the model: an `Env` record of oracles plus an
explicit `now : Int` timestamp, so the executor itself stays a total
function.
-/

namespace LinuxShellServer

/-- `DEFAULT_TIMEOUT = 30` from the source's performance configuration. -/
def DEFAULT_TIMEOUT : Nat := 30

/-- `MAX_TIMEOUT = 120` from the source's performance configuration. -/
def MAX_TIMEOUT : Nat := 120

/-- `MAX_OUTPUT_SIZE = 10000` characters per stream. -/
def MAX_OUTPUT_SIZE : Nat := 10000

/-- `CACHE_DURATION = 60` seconds. -/
def CACHE_DURATION : Int := 60

/-- `LONG_RUNNING_COMMANDS = {'find', 'grep', 'du', 'tar', 'zip', 'rsync', 'cp', 'mv'}`. -/
def LONG_RUNNING_COMMANDS : List String :=
  ["find", "grep", "du", "tar", "zip", "rsync", "cp", "mv"]

/-- `CACHEABLE_COMMANDS = {'ls', 'pwd', 'whoami', 'id', 'date', 'hostname', 'uname'}`. -/
def CACHEABLE_COMMANDS : List String :=
  ["ls", "pwd", "whoami", "id", "date", "hostname", "uname"]

/--
The result dictionaries built by `execute_command`, `change_directory`
and `get_current_directory`.  `execute_command` always populates an
`"exit_code"` key; the other two operations return dictionaries with
only `"output"` and `"error"` keys, which is modelled by
`exit_code = none` (absence of the key).
-/
structure ExecResult where
  output : String
  exit_code : Option Int
  error : Bool
deriving DecidableEq, Repr

/-- Helper for `pySplit`: scan the characters, accumulating the
current (reversed) token. -/
def splitWsAux : List Char → List Char → List String
  | acc, [] => if acc = [] then [] else [String.mk acc.reverse]
  | acc, c :: cs =>
      if c.isWhitespace then
        if acc = [] then splitWsAux [] cs
        else String.mk acc.reverse :: splitWsAux [] cs
      else splitWsAux (c :: acc) cs

/-- Python `str.split()` with no argument: split on runs of whitespace,
dropping empty pieces. -/
def pySplit (s : String) : List String :=
  splitWsAux [] s.data

/-- Drop leading whitespace from a character list. -/
def dropWs : List Char → List Char
  | [] => []
  | c :: cs => if c.isWhitespace then dropWs cs else c :: cs

/-- Python `str.strip()`: remove leading and trailing whitespace. -/
def pyStrip (s : String) : String :=
  String.mk ((dropWs (dropWs s.data.reverse).reverse))

/-- Python `"sep".join(parts)`. -/
def joinSep (sep : String) : List String → String
  | [] => ""
  | [x] => x
  | x :: y :: xs => x ++ sep ++ joinSep sep (y :: xs)

/-- `key.split()[0] if key.split() else ""` from `CommandCache.set`. -/
def firstToken (s : String) : String :=
  match pySplit s with
  | [] => ""
  | t :: _ => t

/-- `charsLeadMatch p l` is true when `p` is an initial segment of `l`
(Python `l.startswith(p)` on character lists). -/
def charsLeadMatch : List Char → List Char → Bool
  | [], _ => true
  | _ :: _, [] => false
  | p :: ps, c :: cs => p = c && charsLeadMatch ps cs

/-- `charsFind p l` is true when `p` occurs contiguously inside `l`. -/
def charsFind : List Char → List Char → Bool
  | p, [] => charsLeadMatch p []
  | p, c :: cs => charsLeadMatch p (c :: cs) || charsFind p cs

/-- Python's `sub in s` substring test on strings. -/
def strHasSub (sub s : String) : Bool :=
  charsFind sub.data s.data

/-- The `self.cache` dictionary of `CommandCache`: keys map to
`(result, timestamp)` pairs.  Modelled as an association list with at
most one entry per key. -/
abbrev CacheEntries := List (String × ExecResult × Int)

/-- Dictionary lookup `self.cache[key]` (first matching entry). -/
def lookupEntry : CacheEntries → String → Option (ExecResult × Int)
  | [], _ => none
  | (k, r, ts) :: rest, key =>
      if k = key then some (r, ts) else lookupEntry rest key

/-- Dictionary deletion `del self.cache[key]`. -/
def eraseKey : CacheEntries → String → CacheEntries
  | [], _ => []
  | (k, r, ts) :: rest, key =>
      if k = key then eraseKey rest key else (k, r, ts) :: eraseKey rest key

/-- Dictionary assignment `self.cache[key] = (result, timestamp)`:
overwrites any previous binding of `key`. -/
def storeEntry (l : CacheEntries) (key : String) (r : ExecResult) (ts : Int) :
    CacheEntries :=
  eraseKey l key ++ [(key, r, ts)]

/-- In-place mutation of the result dictionary held by an entry
(`cached_result["output"] += ...` acts on the very object stored in
the cache); the timestamp of the entry is untouched. -/
def mutateEntry : CacheEntries → String → ExecResult → CacheEntries
  | [], _, _ => []
  | (k, r, ts) :: rest, key, r2 =>
      if k = key then (k, r2, ts) :: mutateEntry rest key r2
      else (k, r, ts) :: mutateEntry rest key r2

/-- The `CommandCache` class: `self.cache` and `self.max_age`. -/
structure CommandCache where
  cache : CacheEntries
  max_age : Int
deriving DecidableEq, Repr

/-- `CommandCache.get`: on a fresh entry return the stored result (the
shared object, not a copy); on an expired entry delete it and return
`None`; on a miss return `None`.  The updated dictionary is returned
alongside. -/
def CommandCache.get (c : CommandCache) (now : Int) (key : String) :
    Option ExecResult × CommandCache :=
  match lookupEntry c.cache key with
  | some (result, timestamp) =>
      if now - timestamp < c.max_age then (some result, c)
      else (none, { c with cache := eraseKey c.cache key })
  | none => (none, c)

/-- `CommandCache.set`: only cache results with `error` false whose
key's first whitespace-delimited token is in `CACHEABLE_COMMANDS`. -/
def CommandCache.set (c : CommandCache) (now : Int) (key : String)
    (result : ExecResult) : CommandCache :=
  if result.error = false then
    if firstToken key ∈ CACHEABLE_COMMANDS then
      { c with cache := storeEntry c.cache key result now }
    else c
  else c

/-- Outcome of `_execute_with_timeout`: a normal completion carrying
decoded stdout, stderr and the return code; a raised
`TimeoutError`; or any other exception (spawn failure, IO error),
carrying `str(e)`. -/
inductive ExecOutcome where
  | ok (stdout stderr : String) (returncode : Int)
  | timedOut
  | failed (msg : String)
deriving DecidableEq, Repr

/-- Outcome of the `os.listdir` readability probe in `change_directory`. -/
inductive ListDirOutcome where
  | ok
  | permissionDenied
  | otherError (msg : String)
deriving DecidableEq, Repr

/-- The operating-system facilities the executor calls out to.
`runShell cmd cwd` is the subprocess machinery of
`_execute_with_timeout`; `pathExists` / `isDir` / `listDirProbe` are
`os.path.exists`, `os.path.isdir` and the `os.listdir` probe;
`resolvePath cur p` is the composite
`os.path.abspath (join-if-relative cur (expanduser (expandvars p)))`
used by `change_directory`. -/
structure Env where
  runShell : String → String → ExecOutcome
  pathExists : String → Bool
  isDir : String → Bool
  listDirProbe : String → ListDirOutcome
  resolvePath : String → String → String

/-- The `ShellExecutor` state: `self.current_directory` and `self.cache`. -/
structure ShellExecutor where
  current_directory : String
  cache : CommandCache
deriving DecidableEq, Repr

/-- `_determine_timeout`: long timeout when any long-running command
name occurs inside the command text or the first token is itself
long-running; default timeout otherwise. -/
def determine_timeout (command : String) : Nat :=
  match pySplit (pyStrip command) with
  | [] => DEFAULT_TIMEOUT
  | first_command :: _ =>
      if LONG_RUNNING_COMMANDS.any (fun cmd => strHasSub cmd command) then
        MAX_TIMEOUT
      else if first_command ∈ LONG_RUNNING_COMMANDS then
        MAX_TIMEOUT
      else
        DEFAULT_TIMEOUT

/-- `_truncate_output`: cut a stream at `MAX_OUTPUT_SIZE` characters,
appending the truncation notice. -/
def truncate_output (text : String) : String :=
  if text.length > MAX_OUTPUT_SIZE then
    String.mk (text.data.take MAX_OUTPUT_SIZE) ++
      "\n... (output truncated, showing first " ++ toString MAX_OUTPUT_SIZE ++
      " characters)"
  else text

/-- `cwd = working_directory if working_directory else
self.current_directory`: `None` and the empty string are both falsy. -/
def resolvedCwd (ex : ShellExecutor) (working_directory : Option String) :
    String :=
  match working_directory with
  | some wd => if wd = "" then ex.current_directory else wd
  | none => ex.current_directory

/-- `cache_key = f"{command}:{cwd}"`. -/
def cacheKey (command cwd : String) : String :=
  command ++ ":" ++ cwd

/-- The response assembly of `execute_command`: optional STDOUT and
STDERR blocks joined by blank lines (or the no-output placeholder),
then the exit-code and working-directory footer. -/
def composeOutput (stdout_text stderr_text : String) (exit_code : Int)
    (cwd : String) : String :=
  let output_parts : List String :=
    (if stdout_text ≠ "" then ["STDOUT:\n" ++ stdout_text] else []) ++
    (if stderr_text ≠ "" then ["STDERR:\n" ++ stderr_text] else [])
  let output_text :=
    if output_parts = [] then "Command executed with no output"
    else joinSep "\n\n" output_parts
  output_text ++ "\n\nExit code: " ++ toString exit_code ++
    "\nWorking directory: " ++ cwd

/-- `ShellExecutor.execute_command`.  Returns the result dictionary,
the updated executor (its cache may change), and a flag recording
whether the subprocess machinery was invoked at all. -/
def ShellExecutor.execute_command (ex : ShellExecutor) (env : Env) (now : Int)
    (command : String) (working_directory : Option String) :
    ExecResult × ShellExecutor × Bool :=
  if command = "" ∨ pyStrip command = "" then
    (⟨"Error: Command cannot be empty", some 1, true⟩, ex, false)
  else
    let cwd := resolvedCwd ex working_directory
    if env.pathExists cwd = false then
      (⟨"Error: Directory '" ++ cwd ++ "' does not exist", some 1, true⟩,
       ex, false)
    else
      let cache_key := cacheKey command cwd
      match ex.cache.get now cache_key with
      | (some cached_result, cache1) =>
          let annotated : ExecResult :=
            { cached_result with
                output := cached_result.output ++ "\n\n[Result from cache]" }
          let cache2 : CommandCache :=
            { cache1 with cache := mutateEntry cache1.cache cache_key annotated }
          (annotated, { ex with cache := cache2 }, false)
      | (none, cache1) =>
          match env.runShell command cwd with
          | .timedOut =>
              (⟨"Error: Command timed out after " ++
                  toString (determine_timeout command) ++ " seconds",
                some (-1), true⟩,
               { ex with cache := cache1 }, true)
          | .failed msg =>
              (⟨"Error executing command: " ++ msg, some (-1), true⟩,
               { ex with cache := cache1 }, true)
          | .ok stdout stderr returncode =>
              let stdout_text := truncate_output stdout
              let stderr_text := truncate_output stderr
              let output_text := composeOutput stdout_text stderr_text returncode cwd
              let result : ExecResult :=
                ⟨output_text, some returncode, returncode != 0⟩
              (result,
               { ex with cache := cache1.set now cache_key result }, true)

/-- `ShellExecutor.change_directory`.  Returns the result dictionary
and the updated executor; `current_directory` is assigned only on the
success path. -/
def ShellExecutor.change_directory (ex : ShellExecutor) (env : Env)
    (path : String) : ExecResult × ShellExecutor :=
  let abs_path := env.resolvePath ex.current_directory path
  if env.pathExists abs_path = false then
    (⟨"Error: Directory '" ++ abs_path ++ "' does not exist", none, true⟩, ex)
  else if env.isDir abs_path = false then
    (⟨"Error: '" ++ abs_path ++ "' is not a directory", none, true⟩, ex)
  else
    match env.listDirProbe abs_path with
    | .permissionDenied =>
        (⟨"Error: Permission denied accessing directory '" ++ abs_path ++ "'",
          none, true⟩, ex)
    | .otherError msg =>
        (⟨"Error: Cannot access directory '" ++ abs_path ++ "': " ++ msg,
          none, true⟩, ex)
    | .ok =>
        (⟨"Changed directory to: " ++ abs_path, none, false⟩,
         { ex with current_directory := abs_path })

/-- `ShellExecutor.get_current_directory`: pure read of
`self.current_directory`. -/
def ShellExecutor.get_current_directory (ex : ShellExecutor) : ExecResult :=
  ⟨"Current directory: " ++ ex.current_directory, none, false⟩

/-- Well-formedness of a cache entry: only successful results with a
stored exit code of `0` ever reach the cache. -/
def entryWF (e : String × ExecResult × Int) : Prop :=
  e.2.1.error = false ∧ e.2.1.exit_code = some 0

instance (e : String × ExecResult × Int) : Decidable (entryWF e) := by
  unfold entryWF; infer_instance

/-- Every entry of the cache dictionary is well formed. -/
def CacheWF (c : CommandCache) : Prop :=
  ∀ e ∈ c.cache, entryWF e

instance (c : CommandCache) : Decidable (CacheWF c) :=
  List.decidableBAll _ _

/-! ### Concrete environments used to run the model on specific inputs -/

/-- An environment with a single existing directory `/workspace` in
which `pwd` succeeds, printing the directory. -/
def envPwd : Env :=
  { runShell := fun command cwd =>
      if command = "pwd" then .ok (cwd ++ "\n") "" 0 else .failed "unexpected"
    pathExists := fun p => p == "/workspace"
    isDir := fun p => p == "/workspace"
    listDirProbe := fun _ => .ok
    resolvePath := fun _ p => p }

/-- Like `envPwd`, but the command `ls -la` succeeds with one line of
listing output. -/
def envLs : Env :=
  { envPwd with runShell := fun command _ =>
      if command = "ls -la" then .ok "file1\n" "" 0 else .failed "unexpected" }

/-- An environment in which every command raises `TimeoutError`. -/
def envSlow : Env :=
  { envPwd with runShell := fun _ _ => .timedOut }

/-- An environment in which spawning any command raises an `OSError`
with message `spawn failed`. -/
def envBroken : Env :=
  { envPwd with runShell := fun _ _ => .failed "spawn failed" }

/-- A freshly initialized executor sitting in `/workspace` with an
empty cache. -/
def exec0 : ShellExecutor := ⟨"/workspace", ⟨[], CACHE_DURATION⟩⟩

/-! ### Helper lemmas -/

theorem charsLeadMatch_refl (p : List Char) : charsLeadMatch p p = true := by
  induction p with
  | nil => rfl
  | cons c cs ih => simp [charsLeadMatch, ih]

theorem charsFind_suffix (l p : List Char) : charsFind p (l ++ p) = true := by
  induction l with
  | nil =>
      cases p with
      | nil => rfl
      | cons c cs => simp [charsFind, charsLeadMatch_refl]
  | cons a l ih => simp [charsFind, ih]

theorem strHasSub_of_append (pre sub : String) :
    strHasSub sub (pre ++ sub) = true := by
  show charsFind sub.data (pre ++ sub).data = true
  have h : (pre ++ sub).data = pre.data ++ sub.data := by
    cases pre; cases sub; rfl
  rw [h]
  exact charsFind_suffix pre.data sub.data

theorem lookupEntry_mem {l : CacheEntries} {key : String} {r : ExecResult}
    {ts : Int} (h : lookupEntry l key = some (r, ts)) : (key, r, ts) ∈ l := by
  induction l with
  | nil => simp [lookupEntry] at h
  | cons e rest ih =>
      obtain ⟨k, r', ts'⟩ := e
      by_cases hk : k = key
      · subst hk
        simp [lookupEntry] at h
        simp [h.1, h.2]
      · rw [lookupEntry, if_neg hk] at h
        exact List.mem_cons_of_mem _ (ih h)

theorem lookupEntry_eraseKey_self (l : CacheEntries) (key : String) :
    lookupEntry (eraseKey l key) key = none := by
  induction l with
  | nil => rfl
  | cons e rest ih =>
      obtain ⟨k, r, ts⟩ := e
      by_cases hk : k = key
      · simp [eraseKey, hk, ih]
      · simp [eraseKey, hk, lookupEntry, ih]

theorem lookupEntry_eraseKey_ne (l : CacheEntries) {key k2 : String}
    (h : k2 ≠ key) : lookupEntry (eraseKey l key) k2 = lookupEntry l k2 := by
  induction l with
  | nil => rfl
  | cons e rest ih =>
      obtain ⟨k, r, ts⟩ := e
      by_cases hk : k = key
      · subst hk
        rw [eraseKey, if_pos rfl, lookupEntry, if_neg (fun hkk => h hkk.symm), ih]
      · rw [eraseKey, if_neg hk]
        rw [lookupEntry, lookupEntry]
        by_cases hk2 : k = k2
        · simp [hk2]
        · rw [if_neg hk2, if_neg hk2, ih]

theorem lookupEntry_append (l1 l2 : CacheEntries) (key : String) :
    lookupEntry (l1 ++ l2) key =
      match lookupEntry l1 key with
      | some v => some v
      | none => lookupEntry l2 key := by
  induction l1 with
  | nil => simp [lookupEntry]
  | cons e rest ih =>
      obtain ⟨k, r, ts⟩ := e
      by_cases hk : k = key
      · simp [lookupEntry, hk]
      · simp [lookupEntry, hk, ih]

theorem lookupEntry_storeEntry_ne (l : CacheEntries) {key k2 : String}
    (r : ExecResult) (ts : Int) (h : k2 ≠ key) :
    lookupEntry (storeEntry l key r ts) k2 = lookupEntry l k2 := by
  rw [storeEntry, lookupEntry_append, lookupEntry_eraseKey_ne l h]
  cases hl : lookupEntry l k2 with
  | some v => rfl
  | none =>
      have : ¬ key = k2 := fun hkk => h hkk.symm
      simp [lookupEntry, this]

/-- A hit of `CommandCache.get` comes from a fresh stored entry and
leaves the cache untouched. -/
theorem CommandCache.get_some {c : CommandCache} {now : Int} {key : String}
    {r : ExecResult} {c2 : CommandCache}
    (h : c.get now key = (some r, c2)) :
    c2 = c ∧ ∃ ts, lookupEntry c.cache key = some (r, ts) ∧
      now - ts < c.max_age := by
  unfold CommandCache.get at h
  cases hl : lookupEntry c.cache key with
  | none => rw [hl] at h; simp at h
  | some v =>
      obtain ⟨r', ts⟩ := v
      rw [hl] at h
      by_cases hfresh : now - ts < c.max_age
      · simp only [hfresh, if_true] at h
        obtain ⟨hr, hc⟩ := Prod.mk.injEq .. |>.mp h
        cases Option.some_inj.mp hr
        exact ⟨hc.symm, ts, rfl, hfresh⟩
      · simp [hfresh] at h

/-- A miss of `CommandCache.get` returns either the unchanged cache or
the cache with the looked-up key deleted. -/
theorem CommandCache.get_none {c : CommandCache} {now : Int} {key : String}
    {c2 : CommandCache} (h : (c.get now key).2 = c2) :
    c2 = c ∨ c2 = { c with cache := eraseKey c.cache key } := by
  unfold CommandCache.get at h
  cases hl : lookupEntry c.cache key with
  | none => rw [hl] at h; exact Or.inl h.symm
  | some v =>
      obtain ⟨r', ts⟩ := v
      rw [hl] at h
      by_cases hfresh : now - ts < c.max_age
      · simp only [hfresh, if_true] at h
        exact Or.inl h.symm
      · simp only [hfresh, if_false] at h
        exact Or.inr h.symm

theorem mem_eraseKey {l : CacheEntries} {key : String}
    {e : String × ExecResult × Int} (h : e ∈ eraseKey l key) : e ∈ l := by
  induction l with
  | nil => simp [eraseKey] at h
  | cons a rest ih =>
      obtain ⟨k, r, ts⟩ := a
      by_cases hk : k = key
      · rw [eraseKey, if_pos hk] at h
        exact List.mem_cons_of_mem _ (ih h)
      · rw [eraseKey, if_neg hk] at h
        rcases List.mem_cons.mp h with h | h
        · exact h ▸ List.mem_cons_self _ _
        · exact List.mem_cons_of_mem _ (ih h)

theorem storeEntry_WF {l : CacheEntries} {key : String} {r : ExecResult}
    {ts : Int} (hl : ∀ e ∈ l, entryWF e)
    (hr : r.error = false ∧ r.exit_code = some 0) :
    ∀ e ∈ storeEntry l key r ts, entryWF e := by
  intro e he
  rcases List.mem_append.mp he with h | h
  · exact hl e (mem_eraseKey h)
  · rcases List.mem_singleton.mp h with h
    exact h ▸ hr

theorem mutateEntry_WF {l : CacheEntries} {key : String} {r2 : ExecResult}
    (hl : ∀ e ∈ l, entryWF e)
    (hr : r2.error = false ∧ r2.exit_code = some 0) :
    ∀ e ∈ mutateEntry l key r2, entryWF e := by
  induction l with
  | nil => intro e he; simp [mutateEntry] at he
  | cons a rest ih =>
      obtain ⟨k, r, ts⟩ := a
      have hrest : ∀ e ∈ rest, entryWF e :=
        fun e he => hl e (List.mem_cons_of_mem _ he)
      intro e he
      by_cases hk : k = key
      · rw [mutateEntry, if_pos hk] at he
        rcases List.mem_cons.mp he with h | h
        · exact h ▸ hr
        · exact ih hrest e h
      · rw [mutateEntry, if_neg hk] at he
        rcases List.mem_cons.mp he with h | h
        · exact h ▸ hl _ (List.mem_cons_self _ _)
        · exact ih hrest e h

/-- `CommandCache.set` preserves cache well-formedness: it only ever
stores a result whose `error` flag is false, and for the results the
executor feeds it that forces a stored exit code of `0`. -/
theorem CommandCache.set_WF {c : CommandCache} (hwf : CacheWF c)
    {r : ExecResult} (hr : r.error = false → r.exit_code = some 0)
    (now : Int) (key : String) : CacheWF (c.set now key r) := by
  unfold CommandCache.set
  by_cases he : r.error = false
  · rw [if_pos he]
    by_cases ht : firstToken key ∈ CACHEABLE_COMMANDS
    · rw [if_pos ht]
      exact storeEntry_WF hwf ⟨he, hr he⟩
    · rw [if_neg ht]; exact hwf
  · rw [if_neg he]; exact hwf

/-- Every branch of `execute_command` returns a result whose
`exit_code` key is populated with an integer `n` such that the
`error` flag is exactly `n ≠ 0`, provided the cache only holds
well-formed entries. -/
theorem execute_result_classified (env : Env) (now : Int) (ex : ShellExecutor)
    (command : String) (working_directory : Option String)
    (hwf : CacheWF ex.cache) :
    ∃ n : Int,
      (ex.execute_command env now command working_directory).1.exit_code =
        some n ∧
      ((ex.execute_command env now command working_directory).1.error = true ↔
        n ≠ 0) := by
  unfold ShellExecutor.execute_command
  dsimp only
  split
  · exact ⟨1, rfl, by norm_num⟩
  · split
    · exact ⟨1, rfl, by norm_num⟩
    · split
      · rename_i cached c1 heq
        obtain ⟨hc1, ts, hl, hfresh⟩ := CommandCache.get_some heq
        have hwfE := hwf _ (lookupEntry_mem hl)
        refine ⟨0, hwfE.2, ?_⟩
        have herr : cached.error = false := hwfE.1
        simp [herr]
      · split
        · exact ⟨-1, rfl, by norm_num⟩
        · exact ⟨-1, rfl, by norm_num⟩
        · rename_i stdout stderr returncode heq
          exact ⟨returncode, rfl, by simp [bne_iff_ne]⟩

/-- `execute_command` keeps the cache well formed: only successful
zero-exit results are ever stored, lookups only delete, and the
cache-hit mutation changes only the stored output text. -/
theorem execute_command_preserves_cacheWF (env : Env) (now : Int)
    (ex : ShellExecutor) (command : String)
    (working_directory : Option String) (hwf : CacheWF ex.cache) :
    CacheWF (ex.execute_command env now command working_directory).2.1.cache := by
  unfold ShellExecutor.execute_command
  dsimp only
  split
  · exact hwf
  · split
    · exact hwf
    · split
      · rename_i cached c1 heq
        obtain ⟨hc1, ts, hl, hfresh⟩ := CommandCache.get_some heq
        have hwfE := hwf _ (lookupEntry_mem hl)
        subst hc1
        exact mutateEntry_WF hwf ⟨hwfE.1, hwfE.2⟩
      · rename_i c1 heq
        have hc1 : c1 = ex.cache ∨
            c1 = ⟨eraseKey ex.cache.cache
                    (cacheKey command (resolvedCwd ex working_directory)),
                  ex.cache.max_age⟩ :=
          CommandCache.get_none (congrArg Prod.snd heq)
        have hwf1 : CacheWF c1 := by
          rcases hc1 with h | h
          · exact h ▸ hwf
          · subst h
            exact fun e he => hwf e (mem_eraseKey he)
        split
        · exact hwf1
        · exact hwf1
        · rename_i stdout stderr returncode hrun
          refine CommandCache.set_WF hwf1 (fun herr => ?_) now _
          have : (returncode != 0) = false := herr
          simp only [bne_eq_false_iff_eq] at this
          rw [this]

/-! ### Claim theorems -/

/-- C1: the claimed round trip fails on the code.  Executing `pwd`
twice in `/workspace` (an eligible command, same resolved directory,
one second apart, well inside the 60-second cache window) leaves the
cache empty after the first call, so the second call re-executes and
its response carries no cache marker: `CommandCache.set` derives the
command token by whitespace-splitting the whole key
`"pwd:/workspace"`, which is not in `CACHEABLE_COMMANDS`. -/
theorem pwd_twice_second_call_misses_cache :
    (exec0.execute_command envPwd 0 "pwd" none).2.1.cache.cache = [] ∧
    strHasSub "[Result from cache]"
      (((exec0.execute_command envPwd 0 "pwd" none).2.1.execute_command
          envPwd 1 "pwd" none).1.output) = false ∧
    ((exec0.execute_command envPwd 0 "pwd" none).2.1.execute_command
        envPwd 1 "pwd" none).1 =
      (exec0.execute_command envPwd 0 "pwd" none).1 := by
  decide

/-- C2: the cache-hit annotation mutates the stored entry.  Running
`ls -la` three times in `/workspace` (timestamps 0, 1, 2, all inside
the window): the second call returns the stored output plus one
marker, but it appends that marker to the result object held by the
cache, so the stored entry now differs from what was stored, and the
third call returns the output with two markers. -/
theorem cache_hit_mutates_stored_result :
    ((exec0.execute_command envLs 0 "ls -la" none).2.1.execute_command
        envLs 1 "ls -la" none).1.output =
      (exec0.execute_command envLs 0 "ls -la" none).1.output ++
        "\n\n[Result from cache]" ∧
    lookupEntry
      (((exec0.execute_command envLs 0 "ls -la" none).2.1.execute_command
          envLs 1 "ls -la" none).2.1.cache.cache)
      (cacheKey "ls -la" "/workspace") =
      some ({ (exec0.execute_command envLs 0 "ls -la" none).1 with
                output := (exec0.execute_command envLs 0 "ls -la" none).1.output ++
                  "\n\n[Result from cache]" }, 0) ∧
    ((((exec0.execute_command envLs 0 "ls -la" none).2.1.execute_command
          envLs 1 "ls -la" none).2.1.execute_command
        envLs 2 "ls -la" none).1.output =
      (exec0.execute_command envLs 0 "ls -la" none).1.output ++
        "\n\n[Result from cache]" ++ "\n\n[Result from cache]") := by
  decide

/-- C6: `CommandCache.set` ignores a successful result for the key
`"pwd:/tmp"`, although the text before the first separator is the
allow-listed command `pwd`: the code whitespace-splits the key, so the
derived token is the whole key `"pwd:/tmp"` and the entry is never
stored. -/
theorem set_drops_bare_cacheable_command :
    CommandCache.set ⟨[], CACHE_DURATION⟩ 0 "pwd:/tmp" ⟨"out", some 0, false⟩ =
      (⟨[], CACHE_DURATION⟩ : CommandCache) ∧
    firstToken "pwd:/tmp" = "pwd:/tmp" ∧
    ("pwd" ∈ CACHEABLE_COMMANDS ∧ "pwd:/tmp" ∉ CACHEABLE_COMMANDS) := by
  decide

/-- C10: supplying the empty string as the working directory behaves
exactly like omitting it: Python's truthiness test
`working_directory if working_directory else self.current_directory`
treats `""` as absent, so the executor's current directory is used. -/
theorem empty_working_directory_defaults_to_current
    (env : Env) (now : Int) (ex : ShellExecutor) (command : String) :
    ex.execute_command env now command (some "") =
      ex.execute_command env now command none := by
  simp [ShellExecutor.execute_command, resolvedCwd]

/-- C8: an empty or whitespace-only command short-circuits: the call
returns the empty-command error with exit code 1 and `error` true,
the executor (in particular its cache) is returned unchanged, and the
spawn flag is `false` — no subprocess machinery and no cache access. -/
theorem empty_command_short_circuits (env : Env) (now : Int)
    (ex : ShellExecutor) (command : String) (working_directory : Option String)
    (h : pyStrip command = "") :
    ex.execute_command env now command working_directory =
      (⟨"Error: Command cannot be empty", some 1, true⟩, ex, false) := by
  unfold ShellExecutor.execute_command
  rw [if_pos (Or.inr h)]

/-- Witness for C8 at the whitespace-only command `"   "`. -/
theorem empty_command_short_circuits_witness :
    exec0.execute_command envPwd 0 "   " none =
      (⟨"Error: Command cannot be empty", some 1, true⟩, exec0, false) :=
  empty_command_short_circuits envPwd 0 exec0 "   " none (by decide)

/-- C5: `change_directory` returns the specific error message and
leaves the executor state untouched when the resolved path does not
exist, is not a directory, or is not readable; on success it assigns
`current_directory` to the resolved absolute path and returns a
confirmation containing that path with `error` false. -/
theorem change_directory_spec (env : Env) (ex : ShellExecutor) (path : String) :
    let abs_path := env.resolvePath ex.current_directory path
    (env.pathExists abs_path = false →
        ex.change_directory env path =
          (⟨"Error: Directory '" ++ abs_path ++ "' does not exist",
            none, true⟩, ex)) ∧
    (env.pathExists abs_path = true → env.isDir abs_path = false →
        ex.change_directory env path =
          (⟨"Error: '" ++ abs_path ++ "' is not a directory",
            none, true⟩, ex)) ∧
    (env.pathExists abs_path = true → env.isDir abs_path = true →
     env.listDirProbe abs_path = .permissionDenied →
        ex.change_directory env path =
          (⟨"Error: Permission denied accessing directory '" ++ abs_path ++ "'",
            none, true⟩, ex)) ∧
    (∀ msg, env.pathExists abs_path = true → env.isDir abs_path = true →
     env.listDirProbe abs_path = .otherError msg →
        ex.change_directory env path =
          (⟨"Error: Cannot access directory '" ++ abs_path ++ "': " ++ msg,
            none, true⟩, ex)) ∧
    (env.pathExists abs_path = true → env.isDir abs_path = true →
     env.listDirProbe abs_path = .ok →
        ex.change_directory env path =
          (⟨"Changed directory to: " ++ abs_path, none, false⟩,
           { ex with current_directory := abs_path }) ∧
        strHasSub abs_path ("Changed directory to: " ++ abs_path) = true) := by
  refine ⟨fun h1 => ?_, fun h1 h2 => ?_, fun h1 h2 h3 => ?_,
          fun msg h1 h2 h3 => ?_, fun h1 h2 h3 => ?_⟩
  · simp [ShellExecutor.change_directory, h1]
  · simp [ShellExecutor.change_directory, h1, h2]
  · simp [ShellExecutor.change_directory, h1, h2, h3]
  · simp [ShellExecutor.change_directory, h1, h2, h3]
  · simp [ShellExecutor.change_directory, h1, h2, h3, strHasSub_of_append]

/-- Witness for C5: changing to `/workspace` in `envPwd` succeeds and
updates `current_directory`. -/
theorem change_directory_spec_witness :
    exec0.change_directory envPwd "/workspace" =
      (⟨"Changed directory to: /workspace", none, false⟩,
       { exec0 with current_directory := "/workspace" }) :=
  ((change_directory_spec envPwd exec0 "/workspace").2.2.2.2
      (by decide) (by decide) rfl).1

/-- C7: a stored entry is visible to `get` exactly while
`now - insertedAt < maxAge`; looking up an expired entry deletes it
and returns `none`; looking up an absent key returns `none` and
changes nothing; and entries are removed only lazily — a lookup never
touches other keys, and `set` never removes an entry for another
key. -/
theorem cache_get_expiry_and_lazy_purge (c : CommandCache) (now : Int)
    (key : String) :
    (∀ r ts, lookupEntry c.cache key = some (r, ts) →
        (now - ts < c.max_age → c.get now key = (some r, c)) ∧
        (¬ now - ts < c.max_age →
            c.get now key = (none, { c with cache := eraseKey c.cache key }) ∧
            lookupEntry (eraseKey c.cache key) key = none)) ∧
    (lookupEntry c.cache key = none → c.get now key = (none, c)) ∧
    (∀ k2, k2 ≠ key →
        lookupEntry (c.get now key).2.cache k2 = lookupEntry c.cache k2) ∧
    (∀ t2 r2 k2, k2 ≠ key →
        lookupEntry (c.set t2 key r2).cache k2 = lookupEntry c.cache k2) := by
  refine ⟨fun r ts h => ⟨fun hfresh => ?_, fun hexp => ⟨?_, ?_⟩⟩,
          fun h => ?_, fun k2 hk2 => ?_, fun t2 r2 k2 hk2 => ?_⟩
  · simp [CommandCache.get, h, hfresh]
  · simp [CommandCache.get, h, hexp]
  · exact lookupEntry_eraseKey_self c.cache key
  · simp [CommandCache.get, h]
  · unfold CommandCache.get
    cases hl : lookupEntry c.cache key with
    | none => rfl
    | some v =>
        obtain ⟨r, ts⟩ := v
        by_cases hfresh : now - ts < c.max_age
        · simp [hfresh]
        · simp only [hfresh, if_false]
          exact lookupEntry_eraseKey_ne c.cache hk2
  · unfold CommandCache.set
    by_cases herr : r2.error = false
    · rw [if_pos herr]
      by_cases htok : firstToken key ∈ CACHEABLE_COMMANDS
      · rw [if_pos htok]
        exact lookupEntry_storeEntry_ne c.cache r2 t2 hk2
      · rw [if_neg htok]
    · rw [if_neg herr]

/-- Witness for C7: a fresh entry stored at time `0` is visible at
time `59` and gone (with the entry deleted) at time `60`. -/
theorem cache_get_expiry_and_lazy_purge_witness :
    (CommandCache.get ⟨[("pwd -P:/w", ⟨"out", some 0, false⟩, 0)], 60⟩ 59
        "pwd -P:/w" =
      (some ⟨"out", some 0, false⟩,
       ⟨[("pwd -P:/w", ⟨"out", some 0, false⟩, 0)], 60⟩)) ∧
    (CommandCache.get ⟨[("pwd -P:/w", ⟨"out", some 0, false⟩, 0)], 60⟩ 60
        "pwd -P:/w" = (none, ⟨[], 60⟩)) := by
  constructor
  · exact ((cache_get_expiry_and_lazy_purge
        ⟨[("pwd -P:/w", ⟨"out", some 0, false⟩, 0)], 60⟩ 59 "pwd -P:/w").1
        ⟨"out", some 0, false⟩ 0 (by decide)).1 (by decide)
  · exact (((cache_get_expiry_and_lazy_purge
        ⟨[("pwd -P:/w", ⟨"out", some 0, false⟩, 0)], 60⟩ 60 "pwd -P:/w").1
        ⟨"out", some 0, false⟩ 0 (by decide)).2 (by decide)).1

/-- C3: `execute_command` never propagates a raw fault.  On a real
execution (non-empty command, existing directory, cache miss): a
raised `TimeoutError` becomes a structured result with `error` true,
exit code `-1` and the timeout message, and any other exception
becomes `error` true, exit code `-1` with the exception's message
embedded in the output.  The embedding is total, so no other escape
path exists. -/
theorem execute_command_converts_faults (env : Env) (now : Int)
    (ex : ShellExecutor) (command : String)
    (working_directory : Option String)
    (hne : pyStrip command ≠ "")
    (hdir : env.pathExists (resolvedCwd ex working_directory) = true)
    (hmiss : (ex.cache.get now
        (cacheKey command (resolvedCwd ex working_directory))).1 = none) :
    (env.runShell command (resolvedCwd ex working_directory) = .timedOut →
        (ex.execute_command env now command working_directory).1 =
          ⟨"Error: Command timed out after " ++
              toString (determine_timeout command) ++ " seconds",
            some (-1), true⟩) ∧
    (∀ msg,
        env.runShell command (resolvedCwd ex working_directory) = .failed msg →
        (ex.execute_command env now command working_directory).1 =
          ⟨"Error executing command: " ++ msg, some (-1), true⟩ ∧
        strHasSub msg
          (ex.execute_command env now command working_directory).1.output =
          true) := by
  have hguard : ¬ (command = "" ∨ pyStrip command = "") := by
    rintro (h | h)
    · exact hne (by rw [h]; rfl)
    · exact hne h
  unfold ShellExecutor.execute_command
  dsimp only
  rw [if_neg hguard, hdir]
  simp only [Bool.true_eq_false, if_false]
  rcases hget : ex.cache.get now
      (cacheKey command (resolvedCwd ex working_directory)) with ⟨o, c1⟩
  rw [hget] at hmiss
  dsimp only at hmiss
  subst hmiss
  refine ⟨fun hrun => ?_, fun msg hrun => ?_⟩
  · rw [hrun]
  · rw [hrun]
    exact ⟨rfl, strHasSub_of_append "Error executing command: " msg⟩

/-- Witness for C3: in `envSlow` every command times out; `sleep 3`
in `/workspace` yields the timeout result with the default
30-second bound, and in `envBroken` the spawn failure's message is
embedded. -/
theorem execute_command_converts_faults_witness :
    (exec0.execute_command envSlow 0 "sleep 3" none).1 =
      ⟨"Error: Command timed out after 30 seconds", some (-1), true⟩ ∧
    (exec0.execute_command envBroken 0 "sleep 3" none).1 =
      ⟨"Error executing command: spawn failed", some (-1), true⟩ :=
  ⟨(execute_command_converts_faults envSlow 0 exec0 "sleep 3" none
      (by decide) (by decide) (by decide)).1 rfl,
   ((execute_command_converts_faults envBroken 0 exec0 "sleep 3" none
      (by decide) (by decide) (by decide)).2 "spawn failed" rfl).1⟩

/-- C4: for a non-empty command in an existing working directory (and
a well-formed cache, which the executor maintains, see
`execute_command_preserves_cacheWF`), the single result returned by
`execute_command` satisfies `error = (exit_code ≠ 0)` — on the live,
timeout, fault and cache-hit paths alike. -/
theorem execute_command_failed_iff_nonzero_exit (env : Env) (now : Int)
    (ex : ShellExecutor) (command : String)
    (working_directory : Option String)
    (hwf : CacheWF ex.cache) (hne : pyStrip command ≠ "")
    (hdir : env.pathExists (resolvedCwd ex working_directory) = true) :
    ∃ n : Int,
      (ex.execute_command env now command working_directory).1.exit_code =
        some n ∧
      ((ex.execute_command env now command working_directory).1.error = true ↔
        n ≠ 0) :=
  execute_result_classified env now ex command working_directory hwf

/-- Witness for C4: `pwd` in `/workspace` returns exit code `0` with
`error` false. -/
theorem execute_command_failed_iff_nonzero_exit_witness :
    (0 : Int) ≠ 1 ∧
    ∃ n : Int,
      (exec0.execute_command envPwd 0 "pwd" none).1.exit_code = some n ∧
      ((exec0.execute_command envPwd 0 "pwd" none).1.error = true ↔ n ≠ 0) :=
  ⟨by norm_num,
   execute_command_failed_iff_nonzero_exit envPwd 0 exec0 "pwd" none
     (by decide) (by decide) (by decide)⟩

/-- C9, counterexample: the claim that `changeDirectory` and
`getCurrentDirectory` results carry an `exitCode` field is false on
the code: the dictionaries they return have no `exit_code` key
(modelled as `exit_code = none`), here shown on a successful
directory change and a current-directory read. -/
theorem cd_result_lacks_exit_code :
    (exec0.change_directory envPwd "/workspace").1.exit_code = none ∧
    exec0.get_current_directory.exit_code = none := by
  decide

/-- C9, amended: every result of the three public operations carries
`output` and `error`; `execute_command` results additionally always
carry a populated `exit_code`, while `change_directory` and
`get_current_directory` results never have an `exit_code` key. -/
theorem result_exit_code_presence (env : Env) (now : Int)
    (ex : ShellExecutor) (command : String)
    (working_directory : Option String) (path : String)
    (hwf : CacheWF ex.cache) :
    (ex.execute_command env now command working_directory).1.exit_code.isSome =
      true ∧
    (ex.change_directory env path).1.exit_code = none ∧
    ex.get_current_directory.exit_code = none := by
  refine ⟨?_, ?_, rfl⟩
  · obtain ⟨n, hn, -⟩ :=
      execute_result_classified env now ex command working_directory hwf
    rw [hn]; rfl
  · unfold ShellExecutor.change_directory
    dsimp only
    split
    · rfl
    · split
      · rfl
      · split <;> rfl

/-- Witness for C9's amended theorem at concrete inputs. -/
theorem result_exit_code_presence_witness :
    (exec0.execute_command envPwd 0 "pwd" none).1.exit_code.isSome = true ∧
    (exec0.change_directory envPwd "/workspace").1.exit_code = none ∧
    exec0.get_current_directory.exit_code = none :=
  result_exit_code_presence envPwd 0 exec0 "pwd" none "/workspace" (by decide)

end LinuxShellServer
